import Mathlib

/-!
Shallow embedding of `puzzle.py` ("One Tough Puzzle" solver).

Python object identity is made explicit: each `Piece` carries a numeric
`pid` (two pieces are "the same object" iff their pids agree), and each
`EmptySpot` instance carries a numeric `eid` allocated from a counter that
is threaded through every operation that constructs `EmptySpot`s.
Python's `x == y` (which calls `__eq__`) and the container comparison
`x is y or x == y` (used by tuple equality and set membership) are
modelled by separate boolean functions.
-/

namespace OneTough

inductive Shape where
  | club
  | diamond
  | heart
  | spade
deriving DecidableEq, Repr

inductive End where
  | tab
  | blank
deriving DecidableEq, Repr

inductive Side where
  | red
  | black
deriving DecidableEq, Repr

inductive Turn where
  | noTurn
  | turn90
  | turn180
  | turn270
deriving DecidableEq, Repr

/-- `Orientation._attributes = (side, ends, shapes)` with the four edges in
N, E, S, W order. -/
structure Orientation where
  side : Side
  northEnd : End
  eastEnd : End
  southEnd : End
  westEnd : End
  northShape : Shape
  eastShape : Shape
  southShape : Shape
  westShape : Shape
deriving DecidableEq, Repr

/-- Errors raised by the Python code. All are `ValueError` except
`resizeNotImplemented` (a `NotImplementedError`) and `assertionError`. -/
inductive PyErr where
  | invalidOrientation
  | zeroWidth
  | zeroHeight
  | tooManyPieces
  | placementConflict
  | occupiedSpot
  | resizeNotImplemented
  | assertionError
deriving DecidableEq, Repr

/-- Which errors `except ValueError` catches. -/
def PyErr.is_value_error : PyErr → Bool
  | PyErr.resizeNotImplemented => false
  | PyErr.assertionError => false
  | _ => true

namespace Orientation

/-- `Orientation.reorient`: flip left-right first (swap east/west, toggle
side), then rotate clockwise by `turn` (a 90° turn moves North to East). -/
def reorient (o : Orientation) (flip : Bool) (turn : Turn) : Orientation :=
  let f : Orientation :=
    if flip then
      { o with
        eastEnd := o.westEnd, westEnd := o.eastEnd,
        eastShape := o.westShape, westShape := o.eastShape,
        side := if o.side = Side.red then Side.black else Side.red }
    else o
  match turn with
  | Turn.noTurn => f
  | Turn.turn90 =>
      ⟨f.side, f.westEnd, f.northEnd, f.eastEnd, f.southEnd,
        f.westShape, f.northShape, f.eastShape, f.southShape⟩
  | Turn.turn180 =>
      ⟨f.side, f.southEnd, f.westEnd, f.northEnd, f.eastEnd,
        f.southShape, f.westShape, f.northShape, f.eastShape⟩
  | Turn.turn270 =>
      ⟨f.side, f.eastEnd, f.southEnd, f.westEnd, f.northEnd,
        f.eastShape, f.southShape, f.westShape, f.northShape⟩

/-- `Orientation.is_valid`: the four ends in N,E,S,W order are one of the
four cyclic rotations of (Tab, Tab, Blank, Blank). -/
def is_valid (o : Orientation) : Bool :=
  decide ((o.northEnd, o.eastEnd, o.southEnd, o.westEnd) = (End.tab, End.tab, End.blank, End.blank)) ||
  decide ((o.northEnd, o.eastEnd, o.southEnd, o.westEnd) = (End.blank, End.tab, End.tab, End.blank)) ||
  decide ((o.northEnd, o.eastEnd, o.southEnd, o.westEnd) = (End.blank, End.blank, End.tab, End.tab)) ||
  decide ((o.northEnd, o.eastEnd, o.southEnd, o.westEnd) = (End.tab, End.blank, End.blank, End.tab))

/-- `Orientation.is_standard`: red side up and ends exactly (Tab, Tab, Blank, Blank). -/
def is_standard (o : Orientation) : Bool :=
  decide (o.side = Side.red) &&
  decide ((o.northEnd, o.eastEnd, o.southEnd, o.westEnd) = (End.tab, End.tab, End.blank, End.blank))

/-- The `while not standard.is_standard()` loop of `to_standard`, with fuel.
For a valid orientation four iterations always suffice (proved below), so the
`none` case is unreachable under the `is_valid` guard. -/
def rotate_to_standard : Nat → Orientation → Option Orientation
  | 0, _ => none
  | n + 1, o =>
      if o.is_standard then some o else rotate_to_standard n (o.reorient false Turn.turn90)

/-- `Orientation.to_standard`: flip if the black side is up, then rotate 90°
until standard; raises `ValueError` (InvalidOrientation) on an invalid
ends pattern. -/
def to_standard (o : Orientation) : Except PyErr Orientation :=
  if o.is_valid then
    match rotate_to_standard 4 (o.reorient (decide (o.side = Side.black)) Turn.noTurn) with
    | some s => Except.ok s
    | none => Except.error PyErr.invalidOrientation
  else
    Except.error PyErr.invalidOrientation

/-- `Orientation.fits_right`: this east edge against the other's west edge;
shapes equal and ends different. -/
def fits_right (a b : Orientation) : Bool :=
  decide (a.eastShape = b.westShape) && decide (a.eastEnd ≠ b.westEnd)

def fits_left (a b : Orientation) : Bool :=
  decide (a.westShape = b.eastShape) && decide (a.westEnd ≠ b.eastEnd)

def fits_below (a b : Orientation) : Bool :=
  decide (a.southShape = b.northShape) && decide (a.southEnd ≠ b.northEnd)

def fits_above (a b : Orientation) : Bool :=
  decide (a.northShape = b.southShape) && decide (a.northEnd ≠ b.southEnd)

end Orientation

/-- A puzzle piece: its `pid` models Python object identity, `orient` is the
standardized orientation stored by `Piece.__init__`. -/
structure Piece where
  pid : Nat
  orient : Orientation
deriving DecidableEq, Repr

/-- `Piece.__init__`: build the orientation (shapes in N,E,S,W order) and
standardize it; fails with InvalidOrientation on an invalid ends pattern. -/
def make_piece (pid : Nat) (ns es ss ws : Shape) (ne ee se we : End) (side : Side) :
    Except PyErr Piece :=
  (Orientation.mk side ne ee se we ns es ss ws).to_standard.map (Piece.mk pid)

/-- `Piece(...)` with the default ends (Tab, Tab, Blank, Blank) and red side. -/
def make_piece_default (pid : Nat) (ns es ss ws : Shape) : Except PyErr Piece :=
  make_piece pid ns es ss ws End.tab End.tab End.blank End.blank Side.red

/-- `OrientedPiece`: a piece plus a (flip, turn) transform. -/
structure OrientedPiece where
  piece : Piece
  flip : Bool
  turn : Turn
deriving DecidableEq, Repr

/-- The geometry an `OrientedPiece` stores at construction:
`piece.reorient(flip=flip, turn=turn)`. -/
def OrientedPiece.orientation (op : OrientedPiece) : Orientation :=
  op.piece.orient.reorient op.flip op.turn

/-- `OrientedPiece.__eq__`: same piece (by identity), same flip, same turn. -/
def op_py_eq (a b : OrientedPiece) : Bool :=
  decide (a.piece.pid = b.piece.pid) && decide (a.flip = b.flip) && decide (a.turn = b.turn)

/-- A grid cell: an `EmptySpot` instance (with its identity `eid`) or an
`OrientedPiece`. -/
inductive Cell where
  | empty (eid : Nat)
  | occ (op : OrientedPiece)
deriving DecidableEq, Repr

def Cell.is_empty : Cell → Bool
  | Cell.empty _ => true
  | Cell.occ _ => false

/-- Python `x == y` on cells. `EmptySpot.__eq__` is always `False`;
`OrientedPiece.__eq__` returns `False` against an empty spot and compares
(piece identity, flip, turn) otherwise. -/
def cell_eq_op : Cell → Cell → Bool
  | Cell.empty _, _ => false
  | Cell.occ _, Cell.empty _ => false
  | Cell.occ a, Cell.occ b => op_py_eq a b

/-- `BaseOrientedPiece.__ne__`: `not self == other`. -/
def cell_ne_op (a b : Cell) : Bool :=
  ! cell_eq_op a b

/-- Python container item comparison `x is y or x == y` (used by tuple
equality and set membership): two `EmptySpot`s compare equal exactly when
they are the same instance. -/
def cell_equiv : Cell → Cell → Bool
  | Cell.empty i, Cell.empty j => decide (i = j)
  | Cell.empty _, Cell.occ _ => false
  | Cell.occ _, Cell.empty _ => false
  | Cell.occ a, Cell.occ b => op_py_eq a b

/-- `fits_right` as dispatched on cells: an `EmptySpot` fits everything, an
`OrientedPiece` fits an `EmptySpot`, and two `OrientedPiece`s compare
geometry only (`OrientedPiece` does not inherit `Piece.fits_right`, so no
same-piece identity check happens here). -/
def Cell.fits_right : Cell → Cell → Bool
  | Cell.empty _, _ => true
  | Cell.occ _, Cell.empty _ => true
  | Cell.occ a, Cell.occ b => a.orientation.fits_right b.orientation

def Cell.fits_left : Cell → Cell → Bool
  | Cell.empty _, _ => true
  | Cell.occ _, Cell.empty _ => true
  | Cell.occ a, Cell.occ b => a.orientation.fits_left b.orientation

def Cell.fits_below : Cell → Cell → Bool
  | Cell.empty _, _ => true
  | Cell.occ _, Cell.empty _ => true
  | Cell.occ a, Cell.occ b => a.orientation.fits_below b.orientation

def Cell.fits_above : Cell → Cell → Bool
  | Cell.empty _, _ => true
  | Cell.occ _, Cell.empty _ => true
  | Cell.occ a, Cell.occ b => a.orientation.fits_above b.orientation

/-- `fits_all_neighbors`: north, east, south, west neighbors in the order
checked by `fits_neighbors`. -/
def Cell.fits_all_neighbors (c north east south west : Cell) : Bool :=
  c.fits_above north && c.fits_right east && c.fits_below south && c.fits_left west

/-- `Puzzle`: width, height and the row-major cell tuple. -/
structure Puzzle where
  width : Nat
  height : Nat
  cells : List Cell
deriving DecidableEq, Repr

namespace Puzzle

/-- `Puzzle.get`: the cell at (col, row), or a fresh `EmptySpot` when out of
range.  The identity of that out-of-range `EmptySpot` never reaches a stored
cell or a comparison, so it is modelled with `eid` 0. -/
def get (p : Puzzle) (col row : Int) : Cell :=
  if col < 0 ∨ row < 0 ∨ (p.width : Int) ≤ col ∨ (p.height : Int) ≤ row then
    Cell.empty 0
  else
    p.cells.getD ((p.width * row.toNat) + col.toNat) (Cell.empty 0)

/-- The constructor's "verify pieces fit" pass: every cell against its four
grid neighbors (`get_neighbors`), out-of-bounds neighbors being empty. -/
def check_all_fit (p : Puzzle) : Bool :=
  (List.range p.width).all fun col =>
    (List.range p.height).all fun row =>
      Cell.fits_all_neighbors (p.get col row)
        (p.get col ((row : Int) - 1))
        (p.get ((col : Int) + 1) row)
        (p.get col ((row : Int) + 1))
        (p.get ((col : Int) - 1) row)

end Puzzle

/-- `Puzzle.__init__` with nonnegative width and height: checks the
zero-pairing and capacity rules, right-pads with fresh `EmptySpot`s (their
`eid`s drawn from the counter `ctr`), and verifies every piece fits its
neighbors.  Returns the puzzle and the advanced counter. -/
def puzzle_init (width height : Nat) (pieces : List Cell) (ctr : Nat) :
    Except PyErr (Puzzle × Nat) :=
  if width = 0 ∧ 0 < height then Except.error PyErr.zeroWidth
  else if height = 0 ∧ 0 < width then Except.error PyErr.zeroHeight
  else if width * height < pieces.length then Except.error PyErr.tooManyPieces
  else if (Puzzle.mk width height
      (pieces ++ (List.range (width * height - pieces.length)).map
        (fun i => Cell.empty (ctr + i)))).check_all_fit then
    Except.ok
      (Puzzle.mk width height
        (pieces ++ (List.range (width * height - pieces.length)).map
          (fun i => Cell.empty (ctr + i))),
       ctr + (width * height - pieces.length))
  else Except.error PyErr.placementConflict

/-- `Puzzle()`: the empty 0×0 puzzle. -/
def empty_puzzle : Puzzle := ⟨0, 0, []⟩

/-- Python `puzzle1 == puzzle2`: the `(width, height, *cells)` tuples compare
equal, cells with the container item comparison `cell_equiv`. -/
def puzzle_py_eq (p q : Puzzle) : Bool :=
  decide (p.width = q.width) && decide (p.height = q.height) &&
  decide (p.cells.length = q.cells.length) &&
  (List.zip p.cells q.cells).all (fun cc => cell_equiv cc.1 cc.2)

/-- Add a puzzle to a Python set of puzzles (dedup by `puzzle_py_eq`). -/
def insert_puzzle (s : List Puzzle) (p : Puzzle) : List Puzzle :=
  if s.any (fun q => puzzle_py_eq q p) then s else s ++ [p]

/-- Python set union `s |= t`. -/
def union_puzzles (s t : List Puzzle) : List Puzzle :=
  t.foldl insert_puzzle s

namespace Puzzle

/-- `Puzzle.place_at`: out-of-bounds raises `NotImplementedError`; an occupied
target raises `ValueError`; otherwise rebuild the puzzle with that one cell
replaced (re-running the constructor's neighbor validation). -/
def place_at (p : Puzzle) (op : OrientedPiece) (at_col at_row : Int) (ctr : Nat) :
    Except PyErr (Puzzle × Nat) :=
  if at_col < 0 ∨ (p.width : Int) ≤ at_col ∨ at_row < 0 ∨ (p.height : Int) ≤ at_row then
    Except.error PyErr.resizeNotImplemented
  else if (p.get at_col at_row).is_empty = false then
    Except.error PyErr.occupiedSpot
  else
    puzzle_init p.width p.height
      (p.cells.set (at_col.toNat + at_row.toNat * p.width) (Cell.occ op)) ctr

/-- The board-growing step of `fit_at`: when the target cell lies outside the
current bounds, build a fresh `Puzzle(new_width, new_height)` of `EmptySpot`s
and replay every existing piece into it with `place_at` (col-major order,
matching `product(range(new_width), range(new_height))`). -/
def grow_for (p : Puzzle) (at_col at_row : Int) (ctr : Nat) :
    Except PyErr (Puzzle × Nat) :=
  if max p.width (at_col + 1).toNat = p.width ∧ max p.height (at_row + 1).toNat = p.height then
    Except.ok (p, ctr)
  else do
    let start ← puzzle_init (max p.width (at_col + 1).toNat) (max p.height (at_row + 1).toNat)
      [] ctr
    ((List.range (max p.width (at_col + 1).toNat)).flatMap fun col =>
        (List.range (max p.height (at_row + 1).toNat)).map fun row => (col, row)).foldlM
      (fun (acc : Puzzle × Nat) cr =>
        match p.get cr.1 cr.2 with
        | Cell.empty _ => Except.ok acc
        | Cell.occ op => acc.1.place_at op cr.1 cr.2 acc.2)
      start

/-- `product((False, True), Turn)` in Python iteration order. -/
def flip_turn_combos : List (Bool × Turn) :=
  [(false, Turn.noTurn), (false, Turn.turn90), (false, Turn.turn180), (false, Turn.turn270),
   (true, Turn.noTurn), (true, Turn.turn90), (true, Turn.turn180), (true, Turn.turn270)]

/-- The orientation-trying loop of `fit_at`: attempt `place_at` with all 8
orientations, swallow `ValueError`s, propagate anything else, collect the
successes into a set. -/
def try_orientations (puzzle : Puzzle) (piece : Piece) (at_col at_row : Int) (ctr : Nat) :
    Except PyErr (List Puzzle × Nat) :=
  flip_turn_combos.foldlM
    (fun (acc : List Puzzle × Nat) ft =>
      match puzzle.place_at ⟨piece, ft.1, ft.2⟩ at_col at_row acc.2 with
      | Except.ok r => Except.ok (insert_puzzle acc.1 r.1, r.2)
      | Except.error e =>
          if e.is_value_error then Except.ok acc else Except.error e)
    ([], ctr)

/-- The identity scan opening `fit_at`: is this `Piece` (the same object)
already placed somewhere on the board? -/
def piece_on_board (p : Puzzle) (piece : Piece) : Bool :=
  p.cells.any fun c =>
    match c with
    | Cell.occ op => decide (op.piece.pid = piece.pid)
    | Cell.empty _ => false

/-- `Puzzle.fit_at`: empty set if the piece (by identity) is already on the
board or the target spot is occupied; otherwise grow the board if needed and
try all 8 orientations. -/
def fit_at (p : Puzzle) (piece : Piece) (at_col at_row : Int) (ctr : Nat) :
    Except PyErr (List Puzzle × Nat) :=
  if p.piece_on_board piece then
    Except.ok ([], ctr)
  else if (p.get at_col at_row).is_empty = false then
    Except.ok ([], ctr)
  else do
    let grown ← p.grow_for at_col at_row ctr
    try_orientations grown.1 piece at_col at_row grown.2

end Puzzle

/-- One `size` step of `solve_puzzle_with_details`: the target cell in
row-major fill order, then `fit_at` for every surviving board and every
candidate piece, unioned. -/
def next_size (columns : Nat) (pieces : List Piece) (size : Nat) (last : List Puzzle)
    (ctr : Nat) : Except PyErr (List Puzzle × Nat) :=
  last.foldlM
    (fun (acc : List Puzzle × Nat) puzzle =>
      pieces.foldlM
        (fun (acc2 : List Puzzle × Nat) piece =>
          (puzzle.fit_at piece (((size - 1) % columns : Nat) : Int)
              (((size - 1) / columns : Nat) : Int) acc2.2).map
            (fun r => (union_puzzles acc2.1 r.1, r.2)))
        acc)
    ([], ctr)

/-- The `for size in range(1, rows*columns + 1)` loop, returning the list of
per-size sets (sizes `size`, `size+1`, ...). -/
def solve_from (columns : Nat) (pieces : List Piece) :
    Nat → Nat → List Puzzle → Nat → Except PyErr (List (List Puzzle) × Nat)
  | _, 0, _, ctr => Except.ok ([], ctr)
  | size, fuel + 1, last, ctr => do
      let r ← next_size columns pieces size last ctr
      let rest ← solve_from columns pieces (size + 1) fuel r.1 r.2
      Except.ok (r.1 :: rest.1, rest.2)

/-- `solve_puzzle_with_details`: asserts `rows * columns == len(pieces)`, then
builds the per-size sets starting from the single empty puzzle; index `size`
of the returned list is the size-`size` set. -/
def solve_puzzle_with_details (columns rows : Nat) (pieces : List Piece) (ctr : Nat) :
    Except PyErr (List (List Puzzle) × Nat) :=
  if rows * columns = pieces.length then
    (solve_from columns pieces 1 (rows * columns) [empty_puzzle] ctr).map
      (fun r => ([empty_puzzle] :: r.1, r.2))
  else
    Except.error PyErr.assertionError

/-- `solve_puzzle`: the set at size `len(pieces)` (the last one). -/
def solve_puzzle (columns rows : Nat) (pieces : List Piece) (ctr : Nat) :
    Except PyErr (List Puzzle × Nat) :=
  (solve_puzzle_with_details columns rows pieces ctr).map
    (fun r => (r.1.getLastD [], r.2))

/-- Well-formedness every constructed `Puzzle` enjoys: the cell tuple fills
the grid exactly. -/
def Puzzle.WF (p : Puzzle) : Prop :=
  p.cells.length = p.width * p.height

/-- `k` clockwise quarter turns. -/
def rot90s : Nat → Orientation → Orientation
  | 0, o => o
  | n + 1, o => rot90s n (o.reorient false Turn.turn90)

/-- Boolean pairwise distinctness of a Python set of puzzles. -/
def all_distinct : List Puzzle → Bool
  | [] => true
  | p :: rest => rest.all (fun q => ! puzzle_py_eq p q) && all_distinct rest

/-- Same dimensions and, cell by cell, the same placed pieces — empty cells
required only to be empty on both sides (their identities may differ). -/
def same_placed_pieces (p q : Puzzle) : Bool :=
  decide (p.width = q.width) && decide (p.height = q.height) &&
  decide (p.cells.length = q.cells.length) &&
  (List.zip p.cells q.cells).all fun cc =>
    match cc with
    | (Cell.empty _, Cell.empty _) => true
    | (Cell.occ a, Cell.occ b) => op_py_eq a b
    | _ => false

/-- The per-size sets of a `solve_puzzle_with_details` run (empty on error). -/
def details_sets (columns rows : Nat) (pieces : List Piece) (ctr : Nat) :
    List (List Puzzle) :=
  match solve_puzzle_with_details columns rows pieces ctr with
  | Except.ok r => r.1
  | Except.error _ => []

/-- `Piece(Shape.SPADE, Shape.DIAMOND, Shape.HEART, Shape.DIAMOND)` — already
in standard position (certified below against `make_piece_default`). -/
def piece1 : Piece :=
  ⟨1, ⟨Side.red, End.tab, End.tab, End.blank, End.blank,
    Shape.spade, Shape.diamond, Shape.heart, Shape.diamond⟩⟩

/-- `Piece(Shape.DIAMOND, Shape.CLUB, Shape.CLUB, Shape.DIAMOND)` ("Red-♦♣♧♢"). -/
def piece4 : Piece :=
  ⟨4, ⟨Side.red, End.tab, End.tab, End.blank, End.blank,
    Shape.diamond, Shape.club, Shape.club, Shape.diamond⟩⟩

/-- `Piece(Shape.HEART, Shape.SPADE, Shape.SPADE, Shape.CLUB)` ("Red-♥♠♤♧"). -/
def piece9 : Piece :=
  ⟨9, ⟨Side.red, End.tab, End.tab, End.blank, End.blank,
    Shape.heart, Shape.spade, Shape.spade, Shape.club⟩⟩

/-- A 1×1 board holding `piece4` in its identity orientation. -/
def puzzle11 : Puzzle :=
  ⟨1, 1, [Cell.occ ⟨piece4, false, Turn.noTurn⟩]⟩

/-- `solve_puzzle(2, 1, [piece4, piece9])`. -/
def run21 : Except PyErr (List Puzzle) :=
  (solve_puzzle 2 1 [piece4, piece9] 0).map Prod.fst

/-- `solve_puzzle(1, 2, [piece4, piece4])` — the same `Piece` object twice. -/
def run12 : Except PyErr (List Puzzle) :=
  (solve_puzzle 1 2 [piece4, piece4] 0).map Prod.fst

/-- The size-3 set of `solve_puzzle_with_details(2, 2, [piece4, piece4, piece1,
piece9])`, a run whose `pieces` list holds the same `Piece` object twice. -/
def run22_size3 : List Puzzle :=
  (details_sets 2 2 [piece4, piece4, piece1, piece9] 0).getD 3 []

/-! ## Theorems -/

/-- `piece1` is what `Piece(SPADE, DIAMOND, HEART, DIAMOND)` constructs. -/
theorem piece1_is_constructed :
    make_piece_default 1 Shape.spade Shape.diamond Shape.heart Shape.diamond =
      Except.ok piece1 := rfl

/-- `piece4` is what `Piece(DIAMOND, CLUB, CLUB, DIAMOND)` constructs. -/
theorem piece4_is_constructed :
    make_piece_default 4 Shape.diamond Shape.club Shape.club Shape.diamond =
      Except.ok piece4 := rfl

/-- `piece9` is what `Piece(HEART, SPADE, SPADE, CLUB)` constructs. -/
theorem piece9_is_constructed :
    make_piece_default 9 Shape.heart Shape.spade Shape.spade Shape.club =
      Except.ok piece9 := rfl

/-- A valid orientation standardizes: `to_standard` succeeds, the result is
standard, and it is reached by the at-most-one flip followed by at most three
quarter turns. -/
theorem to_standard_of_valid (o : Orientation) (h : o.is_valid = true) :
    ∃ s, o.to_standard = Except.ok s ∧ s.is_standard = true ∧
      ∃ k, k ≤ 3 ∧ s = rot90s k (o.reorient (decide (o.side = Side.black)) Turn.noTurn) := by
  obtain ⟨sd, ne, ee, se, we, ns, es, ss, ws⟩ := o
  cases sd <;> cases ne <;> cases ee <;> cases se <;> cases we <;>
    first
    | exact ⟨_, rfl, rfl, 0, by omega, rfl⟩
    | exact ⟨_, rfl, rfl, 1, by omega, rfl⟩
    | exact ⟨_, rfl, rfl, 2, by omega, rfl⟩
    | exact ⟨_, rfl, rfl, 3, by omega, rfl⟩
    | simp [Orientation.is_valid] at h

/-- A standard orientation is its own standardization. -/
theorem to_standard_of_standard (o : Orientation) (h : o.is_standard = true) :
    o.to_standard = Except.ok o := by
  obtain ⟨sd, ne, ee, se, we, ns, es, ss, ws⟩ := o
  simp only [Orientation.is_standard, Bool.and_eq_true, decide_eq_true_eq] at h
  obtain ⟨h1, h2⟩ := h
  subst h1
  cases h2
  rfl

/-- C3: for a valid orientation `o`, `to_standard` returns a standard
orientation, obtained by at most one flip (exactly when the black side is up)
followed by at most three quarter turns, and `to_standard` is idempotent. -/
theorem c3_to_standard_normalizes (o : Orientation) (h : o.is_valid = true) :
    ∃ s, o.to_standard = Except.ok s ∧ s.is_standard = true ∧
      (∃ k, k ≤ 3 ∧ s = rot90s k (o.reorient (decide (o.side = Side.black)) Turn.noTurn)) ∧
      o.to_standard.bind Orientation.to_standard = o.to_standard := by
  obtain ⟨s, hs, hstd, hk⟩ := to_standard_of_valid o h
  refine ⟨s, hs, hstd, hk, ?_⟩
  rw [hs]
  simpa [Except.bind] using to_standard_of_standard s hstd

/-- C3 witness: a valid black-side orientation standardizes idempotently. -/
theorem c3_witness :
    (Orientation.mk Side.black End.blank End.tab End.tab End.blank
        Shape.club Shape.diamond Shape.heart Shape.spade).is_valid = true ∧
      ∃ s, (Orientation.mk Side.black End.blank End.tab End.tab End.blank
        Shape.club Shape.diamond Shape.heart Shape.spade).to_standard = Except.ok s ∧
        s.is_standard = true ∧
        (∃ k, k ≤ 3 ∧ s = rot90s k ((Orientation.mk Side.black End.blank End.tab End.tab End.blank
          Shape.club Shape.diamond Shape.heart Shape.spade).reorient
            (decide ((Orientation.mk Side.black End.blank End.tab End.tab End.blank
              Shape.club Shape.diamond Shape.heart Shape.spade).side = Side.black)) Turn.noTurn)) ∧
        (Orientation.mk Side.black End.blank End.tab End.tab End.blank
          Shape.club Shape.diamond Shape.heart Shape.spade).to_standard.bind
            Orientation.to_standard =
          (Orientation.mk Side.black End.blank End.tab End.tab End.blank
            Shape.club Shape.diamond Shape.heart Shape.spade).to_standard :=
  ⟨by decide, c3_to_standard_normalizes _ (by decide)⟩

/-- C4: four quarter turns are the identity and flipping twice is the
identity, for every valid orientation. -/
theorem c4_reorient_involutions (o : Orientation) (h : o.is_valid = true) :
    ((((o.reorient false Turn.turn90).reorient false Turn.turn90).reorient
        false Turn.turn90).reorient false Turn.turn90) = o ∧
      (o.reorient true Turn.noTurn).reorient true Turn.noTurn = o := by
  obtain ⟨sd, ne, ee, se, we, ns, es, ss, ws⟩ := o
  cases sd <;> exact ⟨rfl, rfl⟩

/-- C4 witness: the identities at the standard club orientation. -/
theorem c4_witness :
    (Orientation.mk Side.red End.tab End.tab End.blank End.blank
        Shape.club Shape.club Shape.club Shape.club).is_valid = true ∧
      ((((Orientation.mk Side.red End.tab End.tab End.blank End.blank
          Shape.club Shape.club Shape.club Shape.club).reorient false Turn.turn90).reorient
            false Turn.turn90).reorient false Turn.turn90).reorient false Turn.turn90 =
          Orientation.mk Side.red End.tab End.tab End.blank End.blank
            Shape.club Shape.club Shape.club Shape.club ∧
        ((Orientation.mk Side.red End.tab End.tab End.blank End.blank
          Shape.club Shape.club Shape.club Shape.club).reorient true Turn.noTurn).reorient
            true Turn.noTurn =
          Orientation.mk Side.red End.tab End.tab End.blank End.blank
            Shape.club Shape.club Shape.club Shape.club := by
  refine ⟨by decide, ?_, ?_⟩
  · exact (c4_reorient_involutions _ (by decide)).1
  · exact (c4_reorient_involutions _ (by decide)).2

/-- C1 (amended): `fits_right` between two oriented pieces is geometry only —
east shape equals west shape and the ends differ — with no same-piece
identity guard (`OrientedPiece` does not inherit the guard in
`Piece.fits_right`). -/
theorem c1_fits_right_geometry (a b : OrientedPiece) :
    Cell.fits_right (Cell.occ a) (Cell.occ b) = true ↔
      a.orientation.eastShape = b.orientation.westShape ∧
        a.orientation.eastEnd ≠ b.orientation.westEnd := by
  simp [Cell.fits_right, Orientation.fits_right]

/-- C1 counterexample: two `OrientedPiece`s wrapping the *same* `Piece`
object (`piece9`, identity and turn-90) for which `fits_right` is `True`. -/
theorem c1_same_piece_counterexample :
    (OrientedPiece.mk piece9 false Turn.noTurn).piece =
        (OrientedPiece.mk piece9 false Turn.turn90).piece ∧
      Cell.fits_right (Cell.occ (OrientedPiece.mk piece9 false Turn.noTurn))
        (Cell.occ (OrientedPiece.mk piece9 false Turn.turn90)) = true :=
  ⟨rfl, rfl⟩

/-- C7: constructing a `Piece` (or standardizing an `Orientation`) fails with
the InvalidOrientation `ValueError` exactly when the four ends are outside
the four valid cyclic patterns. -/
theorem c7_invalid_orientation (pid : Nat) (ns es ss ws : Shape) (ne ee se we : End)
    (side : Side) :
    (make_piece pid ns es ss ws ne ee se we side = Except.error PyErr.invalidOrientation ↔
      ¬((ne, ee, se, we) = (End.tab, End.tab, End.blank, End.blank) ∨
        (ne, ee, se, we) = (End.blank, End.tab, End.tab, End.blank) ∨
        (ne, ee, se, we) = (End.blank, End.blank, End.tab, End.tab) ∨
        (ne, ee, se, we) = (End.tab, End.blank, End.blank, End.tab))) ∧
    ((Orientation.mk side ne ee se we ns es ss ws).to_standard =
        Except.error PyErr.invalidOrientation ↔
      ¬((ne, ee, se, we) = (End.tab, End.tab, End.blank, End.blank) ∨
        (ne, ee, se, we) = (End.blank, End.tab, End.tab, End.blank) ∨
        (ne, ee, se, we) = (End.blank, End.blank, End.tab, End.tab) ∨
        (ne, ee, se, we) = (End.tab, End.blank, End.blank, End.tab))) := by
  have hv : (Orientation.mk side ne ee se we ns es ss ws).is_valid = true ↔
      ((ne, ee, se, we) = (End.tab, End.tab, End.blank, End.blank) ∨
        (ne, ee, se, we) = (End.blank, End.tab, End.tab, End.blank) ∨
        (ne, ee, se, we) = (End.blank, End.blank, End.tab, End.tab) ∨
        (ne, ee, se, we) = (End.tab, End.blank, End.blank, End.tab)) := by
    cases ne <;> cases ee <;> cases se <;> cases we <;> simp [Orientation.is_valid]
  have hmp : make_piece pid ns es ss ws ne ee se we side =
      (Orientation.mk side ne ee se we ns es ss ws).to_standard.map (Piece.mk pid) := rfl
  by_cases hval : (Orientation.mk side ne ee se we ns es ss ws).is_valid = true
  · obtain ⟨s, hs, -, -⟩ := to_standard_of_valid _ hval
    have hnn := hv.mp hval
    constructor
    · rw [hmp, hs]
      exact ⟨fun hx => by simp [Except.map] at hx, fun hx => absurd hnn hx⟩
    · rw [hs]
      exact ⟨fun hx => by simp at hx, fun hx => absurd hnn hx⟩
  · have hvf : (Orientation.mk side ne ee se we ns es ss ws).is_valid = false :=
      Bool.eq_false_iff.mpr hval
    have hts : (Orientation.mk side ne ee se we ns es ss ws).to_standard =
        Except.error PyErr.invalidOrientation := by
      unfold Orientation.to_standard
      rw [hvf]
      simp
    have hnp : ¬((ne, ee, se, we) = (End.tab, End.tab, End.blank, End.blank) ∨
        (ne, ee, se, we) = (End.blank, End.tab, End.tab, End.blank) ∨
        (ne, ee, se, we) = (End.blank, End.blank, End.tab, End.tab) ∨
        (ne, ee, se, we) = (End.tab, End.blank, End.blank, End.tab)) :=
      fun hp => hval (hv.mpr hp)
    constructor
    · rw [hmp, hts]
      exact ⟨fun _ => hnp, fun _ => rfl⟩
    · rw [hts]
      exact ⟨fun _ => hnp, fun _ => rfl⟩

/-- C8: an `EmptySpot` equals nothing (`==` is always `False`, `!=` always
`True`), against every cell value including empty spots and itself. -/
theorem c8_empty_spot_equals_nothing (eid : Nat) (x : Cell) :
    cell_eq_op (Cell.empty eid) x = false ∧ cell_ne_op (Cell.empty eid) x = true := by
  cases x <;> exact ⟨rfl, rfl⟩

set_option maxRecDepth 40000 in
/-- C2: `solve_puzzle(2, 1, [piece4, piece9])` yields exactly 8 pairwise
distinct 2×1 boards, and `solve_puzzle(1, 2, [piece4, piece4])` (the same
`Piece` object twice) yields the empty set. -/
theorem c2_two_piece_solves :
    run21.map (fun s =>
        (s.length,
          s.all (fun p => decide (p.width = 2) && decide (p.height = 1)),
          all_distinct s)) = Except.ok (8, true, true) ∧
      run12 = Except.ok [] :=
  ⟨rfl, rfl⟩

/-- C9: `Puzzle.get` is total — within bounds it reads the stored cell at
row-major index `width*row + col` (the index provably inside the cell list,
so the Python indexing cannot fail), and out of bounds it returns an
`EmptySpot`. -/
theorem c9_get_total (p : Puzzle) (hwf : p.WF) (col row : Int) :
    (0 ≤ col → 0 ≤ row → col < (p.width : Int) → row < (p.height : Int) →
      p.width * row.toNat + col.toNat < p.cells.length ∧
        p.get col row = p.cells.getD (p.width * row.toNat + col.toNat) (Cell.empty 0)) ∧
    ((col < 0 ∨ row < 0 ∨ (p.width : Int) ≤ col ∨ (p.height : Int) ≤ row) →
      p.get col row = Cell.empty 0 ∧ (p.get col row).is_empty = true) := by
  constructor
  · intro h1 h2 h3 h4
    have hcol : col.toNat < p.width := by omega
    have hrow : row.toNat < p.height := by omega
    have hidx : p.width * row.toNat + col.toNat < p.width * p.height := by
      calc p.width * row.toNat + col.toNat < p.width * row.toNat + p.width := by omega
        _ = p.width * (row.toNat + 1) := by ring
        _ ≤ p.width * p.height := Nat.mul_le_mul_left _ (by omega)
    refine ⟨by rw [hwf]; exact hidx, ?_⟩
    unfold Puzzle.get
    rw [if_neg (by omega)]
  · intro h
    unfold Puzzle.get
    rw [if_pos h]
    exact ⟨rfl, rfl⟩

/-- C9 witness: `get` on a concrete well-formed 1×1 board at (0, 0). -/
theorem c9_witness :
    ((0 : Int) ≤ 0 → (0 : Int) ≤ 0 → (0 : Int) < (puzzle11.width : Int) →
      (0 : Int) < (puzzle11.height : Int) →
      puzzle11.width * (0 : Int).toNat + (0 : Int).toNat < puzzle11.cells.length ∧
        puzzle11.get 0 0 =
          puzzle11.cells.getD (puzzle11.width * (0 : Int).toNat + (0 : Int).toNat)
            (Cell.empty 0)) ∧
    (((0 : Int) < 0 ∨ (0 : Int) < 0 ∨ (puzzle11.width : Int) ≤ 0 ∨
        (puzzle11.height : Int) ≤ 0) →
      puzzle11.get 0 0 = Cell.empty 0 ∧ (puzzle11.get 0 0).is_empty = true) :=
  c9_get_total puzzle11 rfl 0 0

set_option maxRecDepth 100000 in
/-- C10: a cell position where both boards hold `EmptySpot`s of different
identities makes the boards unequal, whatever else they share; and the
size-3 set of the 2×2 search run `run22_size3` (whose `pieces` list holds
the same `Piece` object twice) really contains two boards with identical
placed pieces that are nevertheless distinct set members. -/
theorem c10_empty_identity_blocks_equality :
    (∀ (p q : Puzzle) (a b : Nat),
      (Cell.empty a, Cell.empty b) ∈ p.cells.zip q.cells → a ≠ b →
        puzzle_py_eq p q = false) ∧
    run22_size3.any (fun p => run22_size3.any fun q =>
      same_placed_pieces p q && ! puzzle_py_eq p q) = true := by
  constructor
  · intro p q a b hmem hab
    cases hpq : puzzle_py_eq p q with
    | false => rfl
    | true =>
        exfalso
        unfold puzzle_py_eq at hpq
        simp only [Bool.and_eq_true, List.all_eq_true] at hpq
        exact hab (by simpa [cell_equiv] using hpq.2 _ hmem)
  · rfl

/-- C10 witness: two 1×1 boards, each a single `EmptySpot`, with different
instance identities, are unequal. -/
theorem c10_witness :
    puzzle_py_eq ⟨1, 1, [Cell.empty 5]⟩ ⟨1, 1, [Cell.empty 7]⟩ = false :=
  c10_empty_identity_blocks_equality.1 ⟨1, 1, [Cell.empty 5]⟩ ⟨1, 1, [Cell.empty 7]⟩
    5 7 (by decide) (by decide)

/-! ### Helper lemmas on `Except` -/

theorem except_bind_ok {α β : Type} {x : Except PyErr α} {f : α → Except PyErr β} {v : β}
    (h : (x >>= f) = Except.ok v) : ∃ w, x = Except.ok w ∧ f w = Except.ok v := by
  cases x with
  | ok w => exact ⟨w, rfl, h⟩
  | error e => exact Except.noConfusion h

theorem except_map_ok {α β : Type} {x : Except PyErr α} {f : α → β} {v : β}
    (h : x.map f = Except.ok v) : ∃ w, x = Except.ok w ∧ v = f w := by
  cases x with
  | ok w =>
      refine ⟨w, rfl, ?_⟩
      injection h with h1
      exact h1.symm
  | error e => exact Except.noConfusion h

theorem except_ok_pair_inj {α β : Type} {a c : α} {b d : β}
    (h : (Except.ok (a, b) : Except PyErr (α × β)) = Except.ok (c, d)) : a = c ∧ b = d := by
  injection h with h1
  exact ⟨congrArg Prod.fst h1, congrArg Prod.snd h1⟩

/-! ### Structural lemmas on the board constructor and `place_at` -/

/-- A successfully constructed puzzle has the requested dimensions, is well
formed, and its cell list is the padded input. -/
theorem puzzle_init_ok {w h : Nat} {cs : List Cell} {ctr : Nat} {q : Puzzle} {k : Nat}
    (hq : puzzle_init w h cs ctr = Except.ok (q, k)) :
    q.width = w ∧ q.height = h ∧ q.WF := by
  unfold puzzle_init at hq
  split at hq
  · exact Except.noConfusion hq
  split at hq
  · exact Except.noConfusion hq
  split at hq
  next hcap => exact Except.noConfusion hq
  next hcap =>
    split at hq
    · obtain ⟨hpz, -⟩ := except_ok_pair_inj hq
      subst hpz
      refine ⟨rfl, rfl, ?_⟩
      simp only [Puzzle.WF, List.length_append, List.length_map, List.length_range]
      omega
    · exact Except.noConfusion hq

/-- With an exactly full cell list the constructor pads nothing: the counter
is returned untouched and the result does not depend on it. -/
theorem puzzle_init_full {w h : Nat} {cs : List Cell} (hlen : cs.length = w * h) (ctr : Nat) :
    puzzle_init w h cs ctr =
      if w = 0 ∧ 0 < h then Except.error PyErr.zeroWidth
      else if h = 0 ∧ 0 < w then Except.error PyErr.zeroHeight
      else if (Puzzle.mk w h cs).check_all_fit then Except.ok (Puzzle.mk w h cs, ctr)
      else Except.error PyErr.placementConflict := by
  unfold puzzle_init
  have hpad : w * h - cs.length = 0 := by omega
  by_cases hA : w = 0 ∧ 0 < h
  · rw [if_pos hA, if_pos hA]
  rw [if_neg hA, if_neg hA]
  by_cases hB : h = 0 ∧ 0 < w
  · rw [if_pos hB, if_pos hB]
  rw [if_neg hB, if_neg hB]
  rw [if_neg (show ¬ w * h < cs.length by omega)]
  rw [hpad]
  simp

/-- A successful `place_at` preserves dimensions and yields a well-formed
board. -/
theorem place_at_ok {p : Puzzle} {op : OrientedPiece} {c r : Int} {ctr : Nat} {q : Puzzle}
    {k : Nat} (h : p.place_at op c r ctr = Except.ok (q, k)) :
    q.width = p.width ∧ q.height = p.height ∧ q.WF := by
  unfold Puzzle.place_at at h
  split at h
  · exact Except.noConfusion h
  split at h
  · exact Except.noConfusion h
  exact puzzle_init_ok h

/-- On a well-formed board a successful `place_at` returns the counter it was
given (it creates no `EmptySpot`), and its result is counter-independent. -/
theorem place_at_wf_ctr {p : Puzzle} (hwf : p.WF) {op : OrientedPiece} {c r : Int}
    {ctr : Nat} {q : Puzzle} {k : Nat} (h : p.place_at op c r ctr = Except.ok (q, k)) :
    k = ctr ∧ ∀ ctr2, p.place_at op c r ctr2 = Except.ok (q, ctr2) := by
  have hlen : (p.cells.set (c.toNat + r.toNat * p.width) (Cell.occ op)).length =
      p.width * p.height := by
    simpa [List.length_set] using hwf
  unfold Puzzle.place_at at h ⊢
  split at h
  · exact Except.noConfusion h
  next hb =>
    split at h
    · exact Except.noConfusion h
    next ho =>
      have hW : 0 < p.width := by omega
      have hH : 0 < p.height := by omega
      rw [puzzle_init_full hlen ctr] at h
      rw [if_neg (by omega), if_neg (by omega)] at h
      split at h
      next hfit =>
        obtain ⟨hq, hk⟩ := except_ok_pair_inj h
        subst hq
        refine ⟨hk.symm, fun ctr2 => ?_⟩
        rw [if_neg hb, if_neg ho, puzzle_init_full hlen ctr2,
          if_neg (by omega), if_neg (by omega), if_pos hfit]
      next hfit => exact Except.noConfusion h

/-- In bounds, on a well-formed board, `place_at` either succeeds keeping the
counter or fails with a `ValueError` (occupied spot or placement conflict). -/
theorem place_at_classify (p : Puzzle) (hwf : p.WF) (op : OrientedPiece) {c r : Int}
    (ctr : Nat) (hc : 0 ≤ c) (hcw : c < (p.width : Int)) (hr : 0 ≤ r)
    (hrh : r < (p.height : Int)) :
    (∃ q, p.place_at op c r ctr = Except.ok (q, ctr)) ∨
      ∃ e, e.is_value_error = true ∧ p.place_at op c r ctr = Except.error e := by
  have hlen : (p.cells.set (c.toNat + r.toNat * p.width) (Cell.occ op)).length =
      p.width * p.height := by
    simpa [List.length_set] using hwf
  unfold Puzzle.place_at
  rw [if_neg (by omega)]
  split
  · exact Or.inr ⟨PyErr.occupiedSpot, rfl, rfl⟩
  · rw [puzzle_init_full hlen ctr, if_neg (by omega), if_neg (by omega)]
    split
    · exact Or.inl ⟨_, rfl⟩
    · exact Or.inr ⟨PyErr.placementConflict, rfl, rfl⟩

/-! ### Python-set lemmas -/

theorem cell_equiv_refl (c : Cell) : cell_equiv c c = true := by
  cases c <;> simp [cell_equiv, op_py_eq]

theorem puzzle_py_eq_refl (p : Puzzle) : puzzle_py_eq p p = true := by
  have hz : ∀ l : List Cell, (l.zip l).all (fun cc => cell_equiv cc.1 cc.2) = true := by
    intro l
    induction l with
    | nil => rfl
    | cons c t ih => simpa [List.zip_cons_cons, cell_equiv_refl] using ih
  simp [puzzle_py_eq, hz]

theorem mem_insert_puzzle {s : List Puzzle} {p q : Puzzle} (h : q ∈ insert_puzzle s p) :
    q ∈ s ∨ q = p := by
  unfold insert_puzzle at h
  split at h
  · exact Or.inl h
  · rcases List.mem_append.mp h with h1 | h1
    · exact Or.inl h1
    · exact Or.inr (List.mem_singleton.mp h1)

theorem subset_insert_puzzle {s : List Puzzle} (p : Puzzle) {q : Puzzle} (h : q ∈ s) :
    q ∈ insert_puzzle s p := by
  unfold insert_puzzle
  split
  · exact h
  · exact List.mem_append_left _ h

/-- After inserting `p`, the set holds a representative equal (in the Python
sense) to `p`. -/
theorem insert_puzzle_rep (s : List Puzzle) (p : Puzzle) :
    ∃ q ∈ insert_puzzle s p, puzzle_py_eq q p = true := by
  unfold insert_puzzle
  split
  next hany =>
    obtain ⟨q, hq, hpe⟩ := List.any_eq_true.mp hany
    exact ⟨q, hq, hpe⟩
  next hany =>
    exact ⟨p, List.mem_append_right _ (List.mem_singleton.mpr rfl), puzzle_py_eq_refl p⟩

theorem mem_union_puzzles {s t : List Puzzle} {q : Puzzle} (h : q ∈ union_puzzles s t) :
    q ∈ s ∨ q ∈ t := by
  induction t generalizing s with
  | nil => exact Or.inl h
  | cons x ts ih =>
      rcases ih (s := insert_puzzle s x) h with h1 | h1
      · rcases mem_insert_puzzle h1 with h2 | h2
        · exact Or.inl h2
        · exact Or.inr (by simp [h2])
      · exact Or.inr (List.mem_cons_of_mem _ h1)

theorem subset_union_puzzles {s t : List Puzzle} {q : Puzzle} (h : q ∈ s) :
    q ∈ union_puzzles s t := by
  induction t generalizing s with
  | nil => exact h
  | cons x ts ih => exact ih (subset_insert_puzzle x h)

/-! ### The orientation-trying loop -/

theorem mem_flip_turn_combos (fl : Bool) (t : Turn) :
    (fl, t) ∈ Puzzle.flip_turn_combos := by
  cases fl <;> cases t <;> decide

/-- Weak membership extraction from the orientation fold: every collected
board is a successful `place_at` of some orientation. -/
theorem try_fold_mem {g : Puzzle} {piece : Piece} {c r : Int} :
    ∀ (combos : List (Bool × Turn)) (acc : List Puzzle) (ctr : Nat) {l : List Puzzle} {k : Nat},
      (combos.foldlM (fun (acc2 : List Puzzle × Nat) ft =>
        match g.place_at ⟨piece, ft.1, ft.2⟩ c r acc2.2 with
        | Except.ok rr => Except.ok (insert_puzzle acc2.1 rr.1, rr.2)
        | Except.error e =>
            if e.is_value_error then Except.ok acc2 else Except.error e)
        (acc, ctr)) = Except.ok (l, k) →
      ∀ q ∈ l, q ∈ acc ∨ ∃ fl t ctr2 k2, g.place_at ⟨piece, fl, t⟩ c r ctr2 = Except.ok (q, k2) := by
  intro combos
  induction combos with
  | nil =>
      intro acc ctr l k h q hq
      obtain ⟨h1, -⟩ := except_ok_pair_inj h
      subst h1
      exact Or.inl hq
  | cons ft rest ih =>
      intro acc ctr l k h q hq
      rw [List.foldlM_cons] at h
      obtain ⟨⟨acc1, ctr1⟩, hstep, hrest⟩ := except_bind_ok h
      cases hpl : g.place_at ⟨piece, ft.1, ft.2⟩ c r ctr with
      | ok rr =>
          rw [hpl] at hstep
          obtain ⟨h1, h2⟩ := except_ok_pair_inj hstep
          subst h1
          subst h2
          rcases ih _ _ hrest q hq with h3 | h3
          · rcases mem_insert_puzzle h3 with h4 | h4
            · exact Or.inl h4
            · exact Or.inr ⟨ft.1, ft.2, ctr, rr.2, by rw [hpl, h4]⟩
          · exact Or.inr h3
      | error e =>
          simp only [hpl] at hstep
          by_cases hev : e.is_value_error = true
          · rw [if_pos hev] at hstep
            obtain ⟨h1, h2⟩ := except_ok_pair_inj hstep
            subst h1
            subst h2
            rcases ih _ _ hrest q hq with h3 | h3
            · exact Or.inl h3
            · exact Or.inr h3
          · rw [if_neg hev] at hstep
            exact Except.noConfusion hstep

theorem try_orientations_mem {g : Puzzle} {piece : Piece} {c r : Int} {ctr : Nat}
    {l : List Puzzle} {k : Nat}
    (h : Puzzle.try_orientations g piece c r ctr = Except.ok (l, k)) :
    ∀ q ∈ l, ∃ fl t ctr2 k2, g.place_at ⟨piece, fl, t⟩ c r ctr2 = Except.ok (q, k2) := by
  intro q hq
  rcases try_fold_mem Puzzle.flip_turn_combos [] ctr h q hq with h1 | h1
  · exact absurd h1 (List.not_mem_nil q)
  · exact h1

/-- Full specification of the orientation fold on a well-formed board at an
in-range cell: every attempt either succeeds (keeping the counter) or fails
with a `ValueError` which is swallowed; the fold succeeds and returns exactly
the successful placements, deduplicated Python-set style. -/
theorem try_fold_spec {g : Puzzle} {piece : Piece} {c r : Int} {ctr : Nat} :
    ∀ (combos : List (Bool × Turn)) (acc : List Puzzle),
      (∀ ft ∈ combos, (∃ q, g.place_at ⟨piece, ft.1, ft.2⟩ c r ctr = Except.ok (q, ctr)) ∨
        ∃ e, e.is_value_error = true ∧
          g.place_at ⟨piece, ft.1, ft.2⟩ c r ctr = Except.error e) →
      ∃ l, (combos.foldlM (fun (acc2 : List Puzzle × Nat) ft =>
          match g.place_at ⟨piece, ft.1, ft.2⟩ c r acc2.2 with
          | Except.ok rr => Except.ok (insert_puzzle acc2.1 rr.1, rr.2)
          | Except.error e =>
              if e.is_value_error then Except.ok acc2 else Except.error e)
          (acc, ctr)) = Except.ok (l, ctr) ∧
        (∀ q ∈ l, q ∈ acc ∨ ∃ fl t, g.place_at ⟨piece, fl, t⟩ c r ctr = Except.ok (q, ctr)) ∧
        (∀ ft ∈ combos, ∀ q, g.place_at ⟨piece, ft.1, ft.2⟩ c r ctr = Except.ok (q, ctr) →
          ∃ q' ∈ l, puzzle_py_eq q' q = true) ∧
        (∀ q ∈ acc, q ∈ l) := by
  intro combos
  induction combos with
  | nil =>
      intro acc _
      exact ⟨acc, rfl, fun q hq => Or.inl hq,
        fun ft hft => absurd hft (List.not_mem_nil ft), fun q hq => hq⟩
  | cons ft rest ih =>
      intro acc hcls
      rcases hcls ft (List.mem_cons_self ft rest) with ⟨q0, hq0⟩ | ⟨e, hev, he⟩
      · obtain ⟨l, hfold, hmem, hrep, hacc⟩ :=
          ih (insert_puzzle acc q0) (fun ft' hft' => hcls ft' (List.mem_cons_of_mem _ hft'))
        refine ⟨l, ?_, ?_, ?_, fun q hq => hacc q (subset_insert_puzzle q0 hq)⟩
        · rw [List.foldlM_cons, hq0]
          exact hfold
        · intro q hq
          rcases hmem q hq with h1 | h1
          · rcases mem_insert_puzzle h1 with h2 | h2
            · exact Or.inl h2
            · exact Or.inr ⟨ft.1, ft.2, by rw [hq0, h2]⟩
          · exact Or.inr h1
        · intro ft' hft' q hplq
          rcases List.mem_cons.mp hft' with h1 | h1
          · subst h1
            rw [hq0] at hplq
            injection hplq with h2
            have hqq0 : q0 = q := congrArg Prod.fst h2
            subst hqq0
            obtain ⟨q', hq'1, hq'2⟩ := insert_puzzle_rep acc q0
            exact ⟨q', hacc q' hq'1, hq'2⟩
          · exact hrep ft' h1 q hplq
      · obtain ⟨l, hfold, hmem, hrep, hacc⟩ :=
          ih acc (fun ft' hft' => hcls ft' (List.mem_cons_of_mem _ hft'))
        refine ⟨l, ?_, hmem, ?_, hacc⟩
        · rw [List.foldlM_cons]
          simp only [he]
          rw [if_pos hev]
          exact hfold
        · intro ft' hft' q hplq
          rcases List.mem_cons.mp hft' with h1 | h1
          · subst h1
            rw [he] at hplq
            exact Except.noConfusion hplq
          · exact hrep ft' h1 q hplq

/-- `try_orientations` on a well-formed board at an in-range cell: succeeds
with the original counter, discarding exactly the `ValueError` attempts. -/
theorem try_orientations_spec (g : Puzzle) (hwf : g.WF) (piece : Piece) {c r : Int}
    (ctr : Nat) (hc : 0 ≤ c) (hcw : c < (g.width : Int)) (hr : 0 ≤ r)
    (hrh : r < (g.height : Int)) :
    ∃ l, Puzzle.try_orientations g piece c r ctr = Except.ok (l, ctr) ∧
      (∀ q ∈ l, ∃ fl t, g.place_at ⟨piece, fl, t⟩ c r ctr = Except.ok (q, ctr)) ∧
      (∀ fl t q, g.place_at ⟨piece, fl, t⟩ c r ctr = Except.ok (q, ctr) →
        ∃ q' ∈ l, puzzle_py_eq q' q = true) := by
  obtain ⟨l, hfold, hmem, hrep, -⟩ := try_fold_spec Puzzle.flip_turn_combos []
    (fun ft _ => place_at_classify g hwf ⟨piece, ft.1, ft.2⟩ ctr hc hcw hr hrh)
  refine ⟨l, hfold, fun q hq => ?_, fun fl t q hpl => ?_⟩
  · rcases hmem q hq with h1 | h1
    · exact absurd h1 (List.not_mem_nil q)
    · exact h1
  · exact hrep (fl, t) (mem_flip_turn_combos fl t) q hpl


/-! ### Board growth and `fit_at` -/

/-- The replay fold of `grow_for` preserves dimensions and well-formedness. -/
theorem replay_fold_ok {src : Puzzle} :
    ∀ (l : List (Nat × Nat)) (p0 : Puzzle) (c0 : Nat) {g : Puzzle} {k : Nat},
      (l.foldlM (fun (acc : Puzzle × Nat) cr =>
          match src.get cr.1 cr.2 with
          | Cell.empty _ => Except.ok acc
          | Cell.occ op => acc.1.place_at op cr.1 cr.2 acc.2) (p0, c0)) = Except.ok (g, k) →
      g.width = p0.width ∧ g.height = p0.height ∧ (p0.WF → g.WF) := by
  intro l
  induction l with
  | nil =>
      intro p0 c0 g k h
      obtain ⟨h1, -⟩ := except_ok_pair_inj h
      subst h1
      exact ⟨rfl, rfl, id⟩
  | cons cr rest ih =>
      intro p0 c0 g k h
      rw [List.foldlM_cons] at h
      obtain ⟨⟨p1, c1⟩, hmid, hrest⟩ := except_bind_ok h
      obtain ⟨hw, hh, hwf⟩ := ih p1 c1 hrest
      cases hget : src.get cr.1 cr.2 with
      | empty eid =>
          simp only [hget] at hmid
          obtain ⟨h1, -⟩ := except_ok_pair_inj hmid
          subst h1
          exact ⟨hw, hh, hwf⟩
      | occ op =>
          simp only [hget] at hmid
          obtain ⟨hpw, hph, hpwf⟩ := place_at_ok hmid
          exact ⟨hw.trans hpw, hh.trans hph, fun _ => hwf hpwf⟩

/-- A successful `grow_for` yields the grown dimensions (the originals when no
growth was needed) and preserves well-formedness. -/
theorem grow_for_ok {p : Puzzle} {c r : Int} {ctr : Nat} {g : Puzzle} {k : Nat}
    (h : p.grow_for c r ctr = Except.ok (g, k)) :
    g.width = max p.width (c + 1).toNat ∧ g.height = max p.height (r + 1).toNat ∧
      (p.WF → g.WF) := by
  unfold Puzzle.grow_for at h
  split at h
  next hcond =>
    obtain ⟨h1, -⟩ := except_ok_pair_inj h
    subst h1
    exact ⟨hcond.1.symm, hcond.2.symm, id⟩
  next hcond =>
    obtain ⟨⟨g0, k0⟩, hstart, hfold⟩ := except_bind_ok h
    obtain ⟨hw0, hh0, hwf0⟩ := puzzle_init_ok hstart
    obtain ⟨hw, hh, hwf⟩ := replay_fold_ok _ g0 k0 hfold
    exact ⟨hw.trans hw0, hh.trans hh0, fun _ => hwf hwf0⟩

/-- Every board produced by `fit_at` has the grown bounding dimensions. -/
theorem fit_at_mem_dims {p : Puzzle} {piece : Piece} {c r : Int} {ctr : Nat}
    {l : List Puzzle} {k : Nat} (h : p.fit_at piece c r ctr = Except.ok (l, k)) :
    ∀ q ∈ l, q.width = max p.width (c + 1).toNat ∧ q.height = max p.height (r + 1).toNat := by
  unfold Puzzle.fit_at at h
  split at h
  · obtain ⟨h1, -⟩ := except_ok_pair_inj h
    subst h1
    exact fun q hq => absurd hq (List.not_mem_nil q)
  split at h
  · obtain ⟨h1, -⟩ := except_ok_pair_inj h
    subst h1
    exact fun q hq => absurd hq (List.not_mem_nil q)
  obtain ⟨⟨g, k1⟩, hgrow, htry⟩ := except_bind_ok h
  obtain ⟨hgw, hgh, -⟩ := grow_for_ok hgrow
  intro q hq
  obtain ⟨fl, t, ctr2, k2, hpl⟩ := try_orientations_mem htry q hq
  obtain ⟨hw, hh, -⟩ := place_at_ok hpl
  exact ⟨hw.trans hgw, hh.trans hgh⟩


/-! ### The search loop -/

/-- Inner fold of `next_size`: every accumulated board comes from some
`fit_at` call. -/
theorem pieces_fold_mem {puz : Puzzle} {col row : Int} :
    ∀ (ps : List Piece) (acc : List Puzzle × Nat) {out : List Puzzle × Nat},
      (ps.foldlM (fun (acc2 : List Puzzle × Nat) piece =>
        (puz.fit_at piece col row acc2.2).map
          (fun rr => (union_puzzles acc2.1 rr.1, rr.2))) acc) = Except.ok out →
      ∀ q ∈ out.1, q ∈ acc.1 ∨ ∃ piece ∈ ps, ∃ c2 l2 k2,
        puz.fit_at piece col row c2 = Except.ok (l2, k2) ∧ q ∈ l2 := by
  intro ps
  induction ps with
  | nil =>
      intro acc out h q hq
      injection h with h1
      subst h1
      exact Or.inl hq
  | cons piece rest ih =>
      intro acc out h q hq
      rw [List.foldlM_cons] at h
      obtain ⟨mid, hmid, hrest⟩ := except_bind_ok h
      obtain ⟨rr, hfit, hmideq⟩ := except_map_ok hmid
      subst hmideq
      rcases ih _ hrest q hq with h1 | h1
      · rcases mem_union_puzzles h1 with h2 | h2
        · exact Or.inl h2
        · exact Or.inr ⟨piece, List.mem_cons_self piece rest, acc.2, rr.1, rr.2, hfit, h2⟩
      · obtain ⟨p', hp', hx⟩ := h1
        exact Or.inr ⟨p', List.mem_cons_of_mem _ hp', hx⟩

/-- Outer fold of `next_size`: every board in the produced set comes from a
`fit_at` of some surviving parent board and some candidate piece. -/
theorem last_fold_mem {pieces : List Piece} {col row : Int} :
    ∀ (ls : List Puzzle) (acc : List Puzzle × Nat) {out : List Puzzle × Nat},
      (ls.foldlM (fun (acc0 : List Puzzle × Nat) puzzle =>
        pieces.foldlM (fun (acc2 : List Puzzle × Nat) piece =>
          (puzzle.fit_at piece col row acc2.2).map
            (fun rr => (union_puzzles acc2.1 rr.1, rr.2))) acc0) acc) = Except.ok out →
      ∀ q ∈ out.1, q ∈ acc.1 ∨ ∃ parent ∈ ls, ∃ piece ∈ pieces, ∃ c2 l2 k2,
        parent.fit_at piece col row c2 = Except.ok (l2, k2) ∧ q ∈ l2 := by
  intro ls
  induction ls with
  | nil =>
      intro acc out h q hq
      injection h with h1
      subst h1
      exact Or.inl hq
  | cons parent rest ih =>
      intro acc out h q hq
      rw [List.foldlM_cons] at h
      obtain ⟨mid, hmid, hrest⟩ := except_bind_ok h
      rcases ih _ hrest q hq with h1 | h1
      · rcases pieces_fold_mem pieces acc hmid q h1 with h2 | h2
        · exact Or.inl h2
        · obtain ⟨piece, hpc, hx⟩ := h2
          exact Or.inr ⟨parent, List.mem_cons_self parent rest, piece, hpc, hx⟩
      · obtain ⟨par, hpar, hx⟩ := h1
        exact Or.inr ⟨par, List.mem_cons_of_mem _ hpar, hx⟩

theorem next_size_mem {columns : Nat} {pieces : List Piece} {size : Nat} {last : List Puzzle}
    {ctr : Nat} {s : List Puzzle} {k : Nat}
    (h : next_size columns pieces size last ctr = Except.ok (s, k)) :
    ∀ q ∈ s, ∃ parent ∈ last, ∃ piece ∈ pieces, ∃ c2 l2 k2,
      parent.fit_at piece (((size - 1) % columns : Nat) : Int)
        (((size - 1) / columns : Nat) : Int) c2 = Except.ok (l2, k2) ∧ q ∈ l2 := by
  intro q hq
  rcases last_fold_mem last ([], ctr) h q hq with h1 | h1
  · exact absurd h1 (List.not_mem_nil q)
  · exact h1

/-- Width recurrence of the row-major fill: growing a `min (size-1) columns`
wide board to cover column `(size-1) % columns` gives a `min size columns`
wide board. -/
theorem width_step_arith (columns size : Nat) (hc : 0 < columns) (hs : 1 ≤ size) :
    max (min (size - 1) columns) ((size - 1) % columns + 1) = min size columns := by
  rcases Nat.lt_or_ge (size - 1) columns with hlt | hge
  · rw [Nat.mod_eq_of_lt hlt]
    omega
  · have h1 : (size - 1) % columns < columns := Nat.mod_lt _ hc
    omega

/-- Every board in the set produced by `next_size` has the bounding
dimensions of the row-major fill at that size. -/
theorem next_size_dims {columns : Nat} {pieces : List Piece} {size : Nat}
    {last : List Puzzle} {ctr : Nat} {s : List Puzzle} {k : Nat}
    (h : next_size columns pieces size last ctr = Except.ok (s, k))
    (hcols : 0 < columns) (hsz : 1 ≤ size)
    (hlast : ∀ q ∈ last, q.width = min (size - 1) columns ∧
      q.height = if size - 1 = 0 then 0 else (size - 1 - 1) / columns + 1) :
    ∀ q ∈ s, q.width = min size columns ∧ q.height = (size - 1) / columns + 1 := by
  intro q hq
  obtain ⟨parent, hpar, piece, hpiece, c2, l2, k2, hfit, hql⟩ := next_size_mem h q hq
  obtain ⟨hw, hh⟩ := fit_at_mem_dims hfit q hql
  obtain ⟨hpw, hph⟩ := hlast parent hpar
  have hcastw : ((((size - 1) % columns : Nat) : Int) + 1).toNat = (size - 1) % columns + 1 := by
    generalize (size - 1) % columns = m
    omega
  have hcasth : ((((size - 1) / columns : Nat) : Int) + 1).toNat = (size - 1) / columns + 1 := by
    generalize (size - 1) / columns = d
    omega
  constructor
  · rw [hw, hpw, hcastw]
    exact width_step_arith columns size hcols hsz
  · rw [hh, hph, hcasth]
    by_cases h0 : size - 1 = 0
    · rw [if_pos h0]
      omega
    · rw [if_neg h0]
      have hle : (size - 1 - 1) / columns ≤ (size - 1) / columns :=
        Nat.div_le_div_right (by omega)
      omega

/-- Invariant of the size loop: every board in the set produced for size
`size + i` has width `min (size+i) columns` and height `(size+i-1)/columns + 1`. -/
theorem solve_from_dims {columns : Nat} {pieces : List Piece} (hcols : 0 < columns) :
    ∀ (fuel size : Nat) (last : List Puzzle) (ctr : Nat) {sets : List (List Puzzle)} {k : Nat},
      solve_from columns pieces size fuel last ctr = Except.ok (sets, k) →
      1 ≤ size →
      (∀ q ∈ last, q.width = min (size - 1) columns ∧
        q.height = if size - 1 = 0 then 0 else (size - 1 - 1) / columns + 1) →
      ∀ i, ∀ q ∈ sets.getD i [], q.width = min (size + i) columns ∧
        q.height = (size + i - 1) / columns + 1 := by
  intro fuel
  induction fuel with
  | zero =>
      intro size last ctr sets k h _ _ i q hq
      obtain ⟨h1, -⟩ := except_ok_pair_inj h
      subst h1
      rw [List.getD] at hq
      simp at hq
  | succ fuel ih =>
      intro size last ctr sets k h hsz hlast i q hq
      unfold solve_from at h
      obtain ⟨⟨s1, k1⟩, hns, h2⟩ := except_bind_ok h
      obtain ⟨⟨rest, k2⟩, hrest, h3⟩ := except_bind_ok h2
      obtain ⟨hsets, -⟩ := except_ok_pair_inj h3
      subst hsets
      have hs1 : ∀ q ∈ s1, q.width = min size columns ∧ q.height = (size - 1) / columns + 1 :=
        next_size_dims hns hcols hsz hlast
      cases i with
      | zero =>
          have hq0 : q ∈ s1 := by simpa using hq
          simpa using hs1 q hq0
      | succ j =>
          have hq1 : q ∈ rest.getD j [] := by simpa using hq
          have hlast1 : ∀ q ∈ s1, q.width = min ((size + 1) - 1) columns ∧
              q.height = if (size + 1) - 1 = 0 then 0
                else ((size + 1) - 1 - 1) / columns + 1 := by
            intro q hqs
            obtain ⟨hw1, hh1⟩ := hs1 q hqs
            refine ⟨by simpa using hw1, ?_⟩
            rw [if_neg (by omega)]
            simpa using hh1
          have := ih (size + 1) s1 k1 hrest (by omega) hlast1 j q hq1
          constructor
          · have hx := this.1
            rw [show size + 1 + j = size + (j + 1) by omega] at hx
            exact hx
          · have hx := this.2
            rw [show size + 1 + j - 1 = size + (j + 1) - 1 by omega] at hx
            exact hx


/-- C5 (amended): `fit_at` returns the empty set when the piece is already on
the board (by identity) or the target spot is occupied; otherwise, for
nonnegative coordinates, once the board has grown it attempts `place_at`
with all 8 orientations, silently discards the attempts that fail with a
`ValueError` (occupied spot / placement conflict), and returns exactly the
set of boards from the successful attempts. -/
theorem c5_fit_at_policy (p : Puzzle) (piece : Piece) (c r : Int) (ctr : Nat)
    (hwf : p.WF) (hc : 0 ≤ c) (hr : 0 ≤ r) :
    (p.piece_on_board piece = true → p.fit_at piece c r ctr = Except.ok ([], ctr)) ∧
    ((p.get c r).is_empty = false → p.fit_at piece c r ctr = Except.ok ([], ctr)) ∧
    (p.piece_on_board piece = false → (p.get c r).is_empty = true →
      ∀ g k, p.grow_for c r ctr = Except.ok (g, k) →
        ∃ l, p.fit_at piece c r ctr = Except.ok (l, k) ∧
          (∀ q ∈ l, ∃ fl t, g.place_at ⟨piece, fl, t⟩ c r k = Except.ok (q, k)) ∧
          (∀ fl t q, g.place_at ⟨piece, fl, t⟩ c r k = Except.ok (q, k) →
            ∃ q' ∈ l, puzzle_py_eq q' q = true)) := by
  refine ⟨?_, ?_, ?_⟩
  · intro hob
    unfold Puzzle.fit_at
    rw [if_pos hob]
  · intro hocc
    unfold Puzzle.fit_at
    by_cases hob : p.piece_on_board piece = true
    · rw [if_pos hob]
    · rw [if_neg hob, if_pos hocc]
  · intro hob hocc g k hgrow
    unfold Puzzle.fit_at
    rw [if_neg (by simp [hob]), if_neg (by simp [hocc]), hgrow]
    obtain ⟨hgw, hgh, hgwf⟩ := grow_for_ok hgrow
    have hgWF : g.WF := hgwf hwf
    have hcw : c < (g.width : Int) := by
      have hle : (c + 1).toNat ≤ g.width := by
        rw [hgw]
        exact Nat.le_max_right _ _
      omega
    have hrh : r < (g.height : Int) := by
      have hle : (r + 1).toNat ≤ g.height := by
        rw [hgh]
        exact Nat.le_max_right _ _
      omega
    obtain ⟨l, htry, hmem, hrep⟩ := try_orientations_spec g hgWF piece k hc hcw hr hrh
    exact ⟨l, htry, hmem, hrep⟩

/-- C5 witness: the amended policy at the empty board, `piece4`, cell (0,0). -/
theorem c5_witness :
    (empty_puzzle.piece_on_board piece4 = true →
      empty_puzzle.fit_at piece4 0 0 0 = Except.ok ([], 0)) ∧
    ((empty_puzzle.get 0 0).is_empty = false →
      empty_puzzle.fit_at piece4 0 0 0 = Except.ok ([], 0)) ∧
    (empty_puzzle.piece_on_board piece4 = false → (empty_puzzle.get 0 0).is_empty = true →
      ∀ g k, empty_puzzle.grow_for 0 0 0 = Except.ok (g, k) →
        ∃ l, empty_puzzle.fit_at piece4 0 0 0 = Except.ok (l, k) ∧
          (∀ q ∈ l, ∃ fl t, g.place_at ⟨piece4, fl, t⟩ 0 0 k = Except.ok (q, k)) ∧
          (∀ fl t q, g.place_at ⟨piece4, fl, t⟩ 0 0 k = Except.ok (q, k) →
            ∃ q' ∈ l, puzzle_py_eq q' q = true)) :=
  c5_fit_at_policy empty_puzzle piece4 0 0 0 rfl (by decide) (by decide)

/-- C5 counterexample: with a negative target column on the empty board —
the piece not yet placed and the target spot empty, so the claim says a set
is returned — `fit_at` instead propagates an uncaught error from the growth
construction. -/
theorem c5_counterexample :
    empty_puzzle.piece_on_board piece4 = false ∧
      (empty_puzzle.get (-1) 0).is_empty = true ∧
      empty_puzzle.fit_at piece4 (-1) 0 0 = Except.error PyErr.zeroWidth :=
  ⟨rfl, rfl, rfl⟩

/-- C6 (amended): every board in the size-`size` set of
`solve_puzzle_with_details(columns, rows, pieces)` has bounding width
`min size columns` (not `min size (col+1)`) and height
`(size-1)/columns + 1`. -/
theorem c6_board_dims (columns rows : Nat) (pieces : List Piece) (ctr size : Nat)
    (h1 : 1 ≤ size) (h2 : size ≤ rows * columns) :
    ((details_sets columns rows pieces ctr).getD size []).all
      (fun p => decide (p.width = min size columns) &&
        decide (p.height = (size - 1) / columns + 1)) = true := by
  unfold details_sets
  cases hrun : solve_puzzle_with_details columns rows pieces ctr with
  | error e => rfl
  | ok res =>
      unfold solve_puzzle_with_details at hrun
      split at hrun
      next hassert =>
        obtain ⟨⟨produced, k1⟩, hsf, hreseq⟩ := except_map_ok hrun
        subst hreseq
        have hcols : 0 < columns := by
          by_contra hc0
          have hcz : columns = 0 := by omega
          subst hcz
          omega
        have hbase : ∀ q ∈ [empty_puzzle], q.width = min (1 - 1) columns ∧
            q.height = if 1 - 1 = 0 then 0 else (1 - 1 - 1) / columns + 1 := by
          intro q hq
          rw [List.mem_singleton] at hq
          subst hq
          exact ⟨by simp [empty_puzzle], by simp [empty_puzzle]⟩
        have hmain := solve_from_dims hcols (rows * columns) 1 [empty_puzzle] ctr hsf
          le_rfl hbase (size - 1)
        rw [List.all_eq_true]
        intro q hq
        have hsz' : size = (size - 1) + 1 := by omega
        rw [hsz'] at hq
        have hq1 : q ∈ produced.getD (size - 1) [] := by simpa using hq
        obtain ⟨hwq, hhq⟩ := hmain q hq1
        rw [show 1 + (size - 1) = size by omega] at hwq hhq
        simp [hwq, hhq]
      next hassert => exact Except.noConfusion hrun

/-- C6 witness: the amended dimension formula on the size-3 set of the
concrete 2×2 run. -/
theorem c6_witness :
    ((details_sets 2 2 [piece4, piece4, piece1, piece9] 0).getD 3 []).all
      (fun p => decide (p.width = min 3 2) &&
        decide (p.height = (3 - 1) / 2 + 1)) = true :=
  c6_board_dims 2 2 [piece4, piece4, piece1, piece9] 0 3 (by omega) (by omega)

set_option maxRecDepth 100000 in
/-- C6 counterexample: in the concrete 2×2 run the size-3 set is nonempty
(80 boards) and none of its boards has the claimed width
`min(size, col+1) = min 3 ((3-1) % 2 + 1) = 1` — they are all 2 wide. -/
theorem c6_counterexample :
    run22_size3.length = 80 ∧
      run22_size3.all (fun p => decide (p.width = min 3 ((3 - 1) % 2 + 1))) = false :=
  ⟨rfl, rfl⟩

end OneTough
